import Mathlib

/-!
Verification development for the `@plasius/ai` capability-routing platform.

Part 1 models `src/platform/http-resilience.ts`: the resilient HTTP transport
(`normalizePolicy`, `parseRetryAfterMs`, `computeBackoffDelayMs`,
`fetchWithPolicy`).  Machine numbers are modelled as `Int`/`ℚ`; the ambient
randomness of `Math.random()` and the wall clock `Date.now()` are passed in
explicitly; the underlying `fetch` is a function from the (1-based) count of
actual fetch invocations to an outcome (a response or a thrown value).

Part 2 models the adapter routing engine (`createAdapterPlatform` and its
inner closures `resolveApiKey`, `resolveAdapter`, `canHandle`,
`generateImage`, `checkBalance`).
-/

/-- JavaScript `String.prototype.toUpperCase` restricted to the per-character
uppercasing that the HTTP method strings in this code base exercise. -/
def jsToUpper (s : String) : String := String.mk (s.data.map Char.toUpper)

/-- JavaScript `String.prototype.trim`: drop leading and trailing
whitespace. -/
def jsTrim (s : String) : String :=
  String.mk (((s.data.dropWhile Char.isWhitespace).reverse.dropWhile Char.isWhitespace).reverse)

/-- JavaScript `Math.round`: round half toward positive infinity. -/
def jsRound (q : ℚ) : Int := ⌊q + 1/2⌋

/-- The optional policy record from `http-resilience.ts` (all fields may be
absent, exactly as in the TypeScript interface `HttpClientPolicy`). -/
structure HttpClientPolicy where
  maxAttempts : Option Int := none
  timeoutMs : Option Int := none
  baseDelayMs : Option Int := none
  maxDelayMs : Option Int := none
  jitterRatio : Option ℚ := none
  respectRetryAfter : Option Bool := none
  retryableMethods : Option (List String) := none
  retryableStatusCodes : Option (List Int) := none

/-- `Required<HttpClientPolicy>` after `normalizePolicy`. -/
structure NormalizedPolicy where
  maxAttempts : Int
  timeoutMs : Int
  baseDelayMs : Int
  maxDelayMs : Int
  jitterRatio : ℚ
  respectRetryAfter : Bool
  retryableMethods : List String
  retryableStatusCodes : List Int

/-- `DEFAULT_RETRYABLE_STATUS_CODES` from the source. -/
def DEFAULT_RETRYABLE_STATUS_CODES : List Int := [408, 409, 425, 429, 500, 502, 503, 504]

/-- `DEFAULT_RETRYABLE_METHODS` from the source. -/
def DEFAULT_RETRYABLE_METHODS : List String := ["GET", "HEAD", "OPTIONS", "PUT", "DELETE", "POST"]

/-- `normalizePolicy` from `http-resilience.ts`: fills in defaults and clamps
numeric fields (`maxAttempts`/`timeoutMs` to at least 1, delays and jitter to
at least 0); user-supplied retryable methods are uppercased. -/
def normalizePolicy (policy : Option HttpClientPolicy) : NormalizedPolicy :=
  { maxAttempts := max 1 ((policy.bind (fun p => p.maxAttempts)).getD 3)
    timeoutMs := max 1 ((policy.bind (fun p => p.timeoutMs)).getD 30000)
    baseDelayMs := max 0 ((policy.bind (fun p => p.baseDelayMs)).getD 250)
    maxDelayMs := max 0 ((policy.bind (fun p => p.maxDelayMs)).getD 4000)
    jitterRatio := max 0 ((policy.bind (fun p => p.jitterRatio)).getD (1/5))
    respectRetryAfter := (policy.bind (fun p => p.respectRetryAfter)).getD true
    retryableMethods :=
      ((policy.bind (fun p => p.retryableMethods)).map (fun ms => ms.map jsToUpper)).getD
        DEFAULT_RETRYABLE_METHODS
    retryableStatusCodes :=
      (policy.bind (fun p => p.retryableStatusCodes)).getD DEFAULT_RETRYABLE_STATUS_CODES }

/-- Abstraction of the string content of a `Retry-After` header as the two
host-level parses in `parseRetryAfterMs` classify it: absent (or empty, which
is falsy), a finite number of seconds, an HTTP date, or unparseable. -/
inductive RetryAfterHeader where
  | absent
  | numeric (seconds : ℚ)
  | httpDate (epochMs : Int)
  | malformed
deriving DecidableEq, Repr

/-- `parseRetryAfterMs` from `http-resilience.ts`; `now` is `Date.now()`. -/
def parseRetryAfterMs (now : Int) : RetryAfterHeader → Option Int
  | .absent => none
  | .numeric seconds => some (max 0 (jsRound (seconds * 1000)))
  | .httpDate epochMs => some (max 0 (epochMs - now))
  | .malformed => none

/-- `computeBackoffDelayMs` from `http-resilience.ts`; `randomDraw` stands for
the `Math.random()` sample (a value in `[0, 1)`). -/
def computeBackoffDelayMs (retryIndex : Nat) (baseDelayMs maxDelayMs : Int)
    (jitterRatio randomDraw : ℚ) : Int :=
  let exponent : Nat := retryIndex - 1
  let cappedExponential : Int := min maxDelayMs (baseDelayMs * 2 ^ exponent)
  if cappedExponential = 0 then 0
  else jsRound ((cappedExponential : ℚ) + (cappedExponential : ℚ) * jitterRatio * randomDraw)

/-- Thrown JavaScript values, as far as the transport classifies them. -/
inductive JsError where
  | typeError (msg : String)
  | domException (name : String)
  | error (msg : String)
deriving DecidableEq, Repr

/-- `isAbortError` from `http-resilience.ts`. -/
def isAbortError : JsError → Bool
  | .domException name => name == "AbortError"
  | _ => false

/-- `isRetryableError` from `http-resilience.ts`. -/
def isRetryableError (e : JsError) : Bool :=
  (match e with | .typeError _ => true | _ => false) || isAbortError e

/-- The parts of a fetch `Response` that `fetchWithPolicy` inspects. -/
structure Response where
  status : Int
  retryAfter : RetryAfterHeader := .absent
deriving DecidableEq, Repr

/-- `Response.ok` of the Fetch standard: status in the 2xx range. -/
def Response.ok (r : Response) : Bool := decide (200 ≤ r.status ∧ r.status < 300)

/-- One attempt's outcome of `fetchWithTimeout`'s inner `fetchFn` call:
either a settled response or a thrown value (network failure / abort). -/
inductive FetchOutcome where
  | resp (r : Response)
  | thrown (e : JsError)
deriving DecidableEq, Repr

/-- The parts of a `RequestInit` that `fetchWithPolicy` inspects, produced
fresh per attempt by `createRequestInit`.  `signalAborted` is
`init.signal?.aborted` and `abortReason` is `signal.reason`. -/
structure RequestInit where
  method : Option String := none
  signalAborted : Bool := false
  abortReason : JsError := .domException "AbortError"
deriving Repr

instance {ε α : Type} [DecidableEq ε] [DecidableEq α] : DecidableEq (Except ε α) := fun a b =>
  match a, b with
  | .ok x, .ok y => if h : x = y then .isTrue (by rw [h]) else .isFalse (by simp [h])
  | .error x, .error y => if h : x = y then .isTrue (by rw [h]) else .isFalse (by simp [h])
  | .ok _, .error _ => .isFalse (by simp)
  | .error _, .ok _ => .isFalse (by simp)

/-- Observable behaviour of one `fetchWithPolicy` run: the settled result
(returned response or thrown value), how many times the underlying fetch was
actually invoked, and the backoff delays slept between attempts. -/
structure FetchTrace where
  result : Except JsError Response
  calls : Nat
  delays : List Int
deriving DecidableEq, Repr

/-- The retry loop of `fetchWithPolicy` (lines 128-192 of
`http-resilience.ts`).  `remaining` is the number of loop iterations still
allowed (the source loop runs `attempt = 1 .. maxAttempts`), `attempt` the
1-based attempt counter, `calls` the number of fetch invocations so far.
When the external abort signal is already set, `fetchWithTimeout` throws the
signal's reason before calling fetch; the catch block then sees
`externalAborted = true`, so `shouldRetry` is false and the reason is
rethrown. -/
def fetchLoop (pol : NormalizedPolicy) (operation : String) (reqInit : Nat → RequestInit)
    (fetchFn : Nat → FetchOutcome) (rand : Nat → ℚ) (now : Int) :
    Nat → Nat → Nat → List Int → Option JsError → FetchTrace
  | 0, _attempt, calls, delays, lastError =>
      { result := .error (lastError.getD
          (.error (operation ++ " failed without a recoverable response."))),
        calls := calls, delays := delays }
  | remaining + 1, attempt, calls, delays, lastError =>
      let init := reqInit attempt
      let method := jsToUpper (init.method.getD "GET")
      if init.signalAborted then
        { result := .error init.abortReason, calls := calls, delays := delays }
      else
        match fetchFn (calls + 1) with
        | .resp response =>
            if response.ok || decide (pol.maxAttempts ≤ (attempt : Int)) then
              { result := .ok response, calls := calls + 1, delays := delays }
            else
              let canRetryMethod := pol.retryableMethods.contains method
              let canRetryStatus := pol.retryableStatusCodes.contains response.status
              if !canRetryMethod || !canRetryStatus then
                { result := .ok response, calls := calls + 1, delays := delays }
              else
                let retryAfterMs :=
                  if pol.respectRetryAfter then parseRetryAfterMs now response.retryAfter
                  else none
                let backoffMs :=
                  computeBackoffDelayMs attempt pol.baseDelayMs pol.maxDelayMs
                    pol.jitterRatio (rand attempt)
                let delayMs := max (retryAfterMs.getD 0) backoffMs
                fetchLoop pol operation reqInit fetchFn rand now remaining (attempt + 1)
                  (calls + 1) (delays ++ [delayMs]) lastError
        | .thrown e =>
            let canRetryMethod := pol.retryableMethods.contains method
            let shouldRetry := decide ((attempt : Int) < pol.maxAttempts) && canRetryMethod &&
              !init.signalAborted && isRetryableError e
            if !shouldRetry then
              { result := .error e, calls := calls + 1, delays := delays }
            else
              let delayMs :=
                computeBackoffDelayMs attempt pol.baseDelayMs pol.maxDelayMs
                  pol.jitterRatio (rand attempt)
              fetchLoop pol operation reqInit fetchFn rand now remaining (attempt + 1)
                (calls + 1) (delays ++ [delayMs]) (some e)

/-- `FetchWithPolicyOptions` from the source; `fetchFn` is indexed by the
1-based count of actual fetch invocations and `createRequestInit` by the
attempt number (it is re-invoked on every attempt). -/
structure FetchWithPolicyOptions where
  url : String
  operation : String
  fetchFn : Nat → FetchOutcome
  policy : Option HttpClientPolicy := none
  createRequestInit : Nat → RequestInit

/-- `fetchWithPolicy` from `http-resilience.ts`: normalize the policy and run
the attempt loop `maxAttempts` times starting at attempt 1. -/
def fetchWithPolicy (options : FetchWithPolicyOptions) (rand : Nat → ℚ) (now : Int) :
    FetchTrace :=
  let pol := normalizePolicy options.policy
  fetchLoop pol options.operation options.createRequestInit options.fetchFn rand now
    pol.maxAttempts.toNat 1 0 [] none

lemma normalizePolicy_maxAttempts_pos (policy : Option HttpClientPolicy) :
    1 ≤ (normalizePolicy policy).maxAttempts :=
  le_max_left _ _

lemma normalizePolicy_maxAttempts_toNat_succ (policy : Option HttpClientPolicy) :
    ∃ m, (normalizePolicy policy).maxAttempts.toNat = m + 1 := by
  have h := normalizePolicy_maxAttempts_pos policy
  refine ⟨(normalizePolicy policy).maxAttempts.toNat - 1, ?_⟩
  omega

lemma normalizePolicy_maxAttempts_toNat_cast (policy : Option HttpClientPolicy) :
    ((normalizePolicy policy).maxAttempts.toNat : Int) = (normalizePolicy policy).maxAttempts := by
  have h := normalizePolicy_maxAttempts_pos policy
  omega

/-- C6: for every policy, when the first response's status is outside the
policy's retryable status set, or the (uppercased) request method is outside
the policy's retryable method set, `fetchWithPolicy` performs exactly one
fetch call, sleeps no retry delay, and returns that first response
unmodified. -/
theorem fetchWithPolicy_single_call_nonretryable
    (options : FetchWithPolicyOptions) (rand : Nat → ℚ) (now : Int) (r : Response)
    (hab : (options.createRequestInit 1).signalAborted = false)
    (hf : options.fetchFn 1 = .resp r)
    (hnr : (normalizePolicy options.policy).retryableStatusCodes.contains r.status = false ∨
      (normalizePolicy options.policy).retryableMethods.contains
        (jsToUpper ((options.createRequestInit 1).method.getD "GET")) = false) :
    fetchWithPolicy options rand now = { result := .ok r, calls := 1, delays := [] } := by
  obtain ⟨m, hm⟩ := normalizePolicy_maxAttempts_toNat_succ options.policy
  show fetchLoop (normalizePolicy options.policy) options.operation options.createRequestInit
      options.fetchFn rand now (normalizePolicy options.policy).maxAttempts.toNat 1 0 [] none = _
  rw [hm]
  simp only [fetchLoop, hab, Nat.zero_add, hf]
  cases hok : r.ok with
  | true => simp
  | false =>
      cases hlast : decide ((normalizePolicy options.policy).maxAttempts ≤ ((1 : Nat) : Int)) with
      | true => simp
      | false =>
          rcases hnr with hs | hmeth
          · have hsm : r.status ∉ (normalizePolicy options.policy).retryableStatusCodes := by
              simpa using hs
            simp [hsm]
          · have hmm : jsToUpper ((options.createRequestInit 1).method.getD "GET") ∉
                (normalizePolicy options.policy).retryableMethods := by
              simpa using hmeth
            simp [hmm]

def c6Options : FetchWithPolicyOptions :=
  { url := "https://api.example.com", operation := "generateImage",
    fetchFn := fun _ => .resp { status := 400 },
    createRequestInit := fun _ => {} }

theorem fetchWithPolicy_single_call_nonretryable_witness :
    fetchWithPolicy c6Options (fun _ => 0) 0 =
      { result := .ok { status := 400 }, calls := 1, delays := [] } :=
  fetchWithPolicy_single_call_nonretryable c6Options (fun _ => 0) 0 { status := 400 }
    rfl rfl (Or.inl (by decide))

lemma fetchLoop_success_after_retryable
    (pol : NormalizedPolicy) (operation : String) (reqInit : Nat → RequestInit)
    (fetchFn : Nat → FetchOutcome) (rand : Nat → ℚ) (now : Int)
    (hab : ∀ a, (reqInit a).signalAborted = false)
    (hm : ∀ a, pol.retryableMethods.contains (jsToUpper ((reqInit a).method.getD "GET")) = true) :
    ∀ (remaining calls attempt : Nat) (delays : List Int) (lastError : Option JsError)
      (r : Response),
      0 < remaining →
      (attempt : Int) + (remaining : Int) = pol.maxAttempts + 1 →
      (∀ j, 0 < j → j < remaining → ∃ rj, fetchFn (calls + j) = .resp rj ∧ rj.ok = false ∧
          pol.retryableStatusCodes.contains rj.status = true) →
      fetchFn (calls + remaining) = .resp r →
      r.ok = true →
      (fetchLoop pol operation reqInit fetchFn rand now remaining attempt calls delays
          lastError).calls = calls + remaining ∧
      (fetchLoop pol operation reqInit fetchFn rand now remaining attempt calls delays
          lastError).result = .ok r := by
  intro remaining
  induction remaining with
  | zero =>
      intro calls attempt delays lastError r h0
      exact absurd h0 (Nat.lt_irrefl 0)
  | succ m ih =>
      intro calls attempt delays lastError r _ hinv hfail hsucc hok
      cases m with
      | zero =>
          simp [fetchLoop, hab attempt, hsucc, hok]
      | succ k =>
          obtain ⟨r1, hf1, hok1, hst1⟩ := hfail 1 (by omega) (by omega)
          have hlt : ¬ (pol.maxAttempts ≤ (attempt : Int)) := by
            push_cast at hinv
            omega
          have hmm : jsToUpper ((reqInit attempt).method.getD "GET") ∈ pol.retryableMethods := by
            simpa using hm attempt
          have hsm : r1.status ∈ pol.retryableStatusCodes := by
            simpa using hst1
          have h3 : ∀ j, 0 < j → j < k + 1 → ∃ rj, fetchFn (calls + 1 + j) = .resp rj ∧
              rj.ok = false ∧ pol.retryableStatusCodes.contains rj.status = true := by
            intro j hj1 hj2
            obtain ⟨rj, hfj, hoj, hsj⟩ := hfail (j + 1) (by omega) (by omega)
            refine ⟨rj, ?_, hoj, hsj⟩
            rwa [show calls + 1 + j = calls + (j + 1) by omega]
          have h4 : fetchFn (calls + 1 + (k + 1)) = .resp r := by
            rwa [show calls + 1 + (k + 1) = calls + (k + 1 + 1) by omega]
          have h2 : ((attempt + 1 : Nat) : Int) + ((k + 1 : Nat) : Int) = pol.maxAttempts + 1 := by
            push_cast at hinv ⊢
            omega
          rw [fetchLoop]
          simp only [hab attempt, hf1]
          simp [hmm, hsm, hok1, hlt]
          constructor
          · rw [(ih (calls + 1) (attempt + 1) _ lastError r (Nat.succ_pos k) h2 h3 h4 hok).1]
            omega
          · exact (ih (calls + 1) (attempt + 1) _ lastError r (Nat.succ_pos k) h2 h3 h4 hok).2

/-- C1 (amended): for every policy whose normalized attempt budget is `n`,
whenever the request method is in the policy's retryable-method set on every
attempt and no external abort signal is set, a fetch function that answers
every call before the `n`-th with a non-2xx response whose status is in the
policy's retryable status set and the `n`-th call with a 2xx response causes
`fetchWithPolicy` to invoke fetch exactly `n` times and return the successful
response. -/
theorem fetchWithPolicy_retry_until_success
    (options : FetchWithPolicyOptions) (rand : Nat → ℚ) (now : Int) (n : Nat) (r : Response)
    (hn : (normalizePolicy options.policy).maxAttempts.toNat = n)
    (hab : ∀ a, (options.createRequestInit a).signalAborted = false)
    (hm : ∀ a, (normalizePolicy options.policy).retryableMethods.contains
        (jsToUpper ((options.createRequestInit a).method.getD "GET")) = true)
    (hfail : ∀ i, 0 < i → i < n → ∃ ri, options.fetchFn i = .resp ri ∧ ri.ok = false ∧
        (normalizePolicy options.policy).retryableStatusCodes.contains ri.status = true)
    (hsucc : options.fetchFn n = .resp r)
    (hok : r.ok = true) :
    (fetchWithPolicy options rand now).calls = n ∧
    (fetchWithPolicy options rand now).result = .ok r := by
  have hcast := normalizePolicy_maxAttempts_toNat_cast options.policy
  have hpos := normalizePolicy_maxAttempts_pos options.policy
  have h := fetchLoop_success_after_retryable (normalizePolicy options.policy)
    options.operation options.createRequestInit options.fetchFn rand now hab hm
    n 0 1 [] none r (by omega) (by rw [← hcast, hn]; push_cast; ring)
    (by intro j hj1 hj2; simpa using hfail j hj1 hj2)
    (by simpa using hsucc) hok
  show (fetchLoop (normalizePolicy options.policy) options.operation options.createRequestInit
      options.fetchFn rand now (normalizePolicy options.policy).maxAttempts.toNat 1 0 [] none).calls = n ∧
    (fetchLoop (normalizePolicy options.policy) options.operation options.createRequestInit
      options.fetchFn rand now (normalizePolicy options.policy).maxAttempts.toNat 1 0 [] none).result = .ok r
  rw [hn]
  exact ⟨by rw [h.1]; omega, h.2⟩

def c1Policy : HttpClientPolicy :=
  { maxAttempts := some 2, baseDelayMs := some 0, retryableMethods := some [] }

def c1Options : FetchWithPolicyOptions :=
  { url := "https://api.example.com", operation := "chatWithAI",
    fetchFn := fun c => if c = 1 then .resp { status := 503 } else .resp { status := 200 },
    policy := some c1Policy,
    createRequestInit := fun _ => {} }

/-- C1 counterexample: the claim as stated quantifies over every policy, but
a policy whose retryable-method set is empty never retries.  With
`maxAttempts = 2` and a fetch that answers 503 (a status in this policy's
retryable status set) and then 200, `fetchWithPolicy` makes exactly one call
and returns the 503 response, not two calls and the 200 response. -/
theorem fetchWithPolicy_retry_counterexample :
    (normalizePolicy (some c1Policy)).maxAttempts = 2 ∧
    (normalizePolicy (some c1Policy)).retryableStatusCodes.contains 503 = true ∧
    c1Options.fetchFn 1 = .resp { status := 503 } ∧
    Response.ok { status := 503 } = false ∧
    c1Options.fetchFn 2 = .resp { status := 200 } ∧
    Response.ok { status := 200 } = true ∧
    (fetchWithPolicy c1Options (fun _ => 0) 0).calls = 1 ∧
    (fetchWithPolicy c1Options (fun _ => 0) 0).result = .ok { status := 503 } := by
  decide

def c1wOptions : FetchWithPolicyOptions :=
  { url := "https://api.example.com", operation := "chatWithAI",
    fetchFn := fun c => if c = 1 then .resp { status := 503 } else .resp { status := 200 },
    policy := some { maxAttempts := some 2, baseDelayMs := some 0 },
    createRequestInit := fun _ => {} }

theorem fetchWithPolicy_retry_until_success_witness :
    (fetchWithPolicy c1wOptions (fun _ => 0) 0).calls = 2 ∧
    (fetchWithPolicy c1wOptions (fun _ => 0) 0).result = .ok { status := 200 } :=
  fetchWithPolicy_retry_until_success c1wOptions (fun _ => 0) 0 2 { status := 200 }
    (by decide) (fun _ => rfl) (fun _ => rfl)
    (fun i h1 h2 => by
      interval_cases i
      exact ⟨{ status := 503 }, by decide, by decide, by decide⟩)
    (by decide) (by decide)

/-- C5: a thrown transport-level exception is retried under exactly the
method-eligibility and attempt-count rules that govern non-2xx statuses —
the loop retries precisely when the attempt budget is not exhausted, the
request method is in the retryable-method set, and `isRetryableError`
accepts the thrown value (no external abort being set); in every other case
the exception itself propagates as the result. -/
theorem fetchLoop_error_retry_propagate
    (pol : NormalizedPolicy) (operation : String) (reqInit : Nat → RequestInit)
    (fetchFn : Nat → FetchOutcome) (rand : Nat → ℚ) (now : Int)
    (remaining attempt calls : Nat) (delays : List Int) (lastError : Option JsError) (e : JsError)
    (hab : (reqInit attempt).signalAborted = false)
    (hf : fetchFn (calls + 1) = .thrown e) :
    (((attempt : Int) < pol.maxAttempts ∧
        pol.retryableMethods.contains (jsToUpper ((reqInit attempt).method.getD "GET")) = true ∧
        isRetryableError e = true) →
      fetchLoop pol operation reqInit fetchFn rand now (remaining + 1) attempt calls delays
          lastError =
        fetchLoop pol operation reqInit fetchFn rand now remaining (attempt + 1) (calls + 1)
          (delays ++ [computeBackoffDelayMs attempt pol.baseDelayMs pol.maxDelayMs
            pol.jitterRatio (rand attempt)])
          (some e)) ∧
    (¬ ((attempt : Int) < pol.maxAttempts ∧
        pol.retryableMethods.contains (jsToUpper ((reqInit attempt).method.getD "GET")) = true ∧
        isRetryableError e = true) →
      fetchLoop pol operation reqInit fetchFn rand now (remaining + 1) attempt calls delays
          lastError =
        { result := .error e, calls := calls + 1, delays := delays }) := by
  constructor
  · rintro ⟨h1, h2, h3⟩
    have hmm : jsToUpper ((reqInit attempt).method.getD "GET") ∈ pol.retryableMethods := by
      simpa using h2
    simp only [fetchLoop]
    simp [hab, hf, h1, h3, hmm]
  · intro hn
    by_cases h1 : (attempt : Int) < pol.maxAttempts
    · by_cases h2 : pol.retryableMethods.contains
          (jsToUpper ((reqInit attempt).method.getD "GET")) = true
      · by_cases h3 : isRetryableError e = true
        · exact absurd ⟨h1, h2, h3⟩ hn
        · have h3f : isRetryableError e = false := by
            simpa using h3
          simp only [fetchLoop]
          simp [hab, hf, h3f]
      · have h2f : jsToUpper ((reqInit attempt).method.getD "GET") ∉ pol.retryableMethods := by
          simpa using h2
        simp only [fetchLoop]
        simp [hab, hf, h2f]
    · simp only [fetchLoop]
      simp [hab, hf, h1]

def c5Req : Nat → RequestInit := fun _ => {}

def c5Fetch : Nat → FetchOutcome := fun _ => .thrown (.typeError "fetch failed")

theorem fetchLoop_error_retry_propagate_witness :
    fetchLoop (normalizePolicy none) "chatWithAI" c5Req c5Fetch (fun _ => 0) 0 3 1 0 [] none =
      fetchLoop (normalizePolicy none) "chatWithAI" c5Req c5Fetch (fun _ => 0) 0 2 2 1
        ([] ++ [computeBackoffDelayMs 1 (normalizePolicy none).baseDelayMs
          (normalizePolicy none).maxDelayMs (normalizePolicy none).jitterRatio 0])
        (some (.typeError "fetch failed")) :=
  (fetchLoop_error_retry_propagate (normalizePolicy none) "chatWithAI" c5Req c5Fetch
      (fun _ => 0) 0 2 1 0 [] none (.typeError "fetch failed") rfl rfl).1
    ⟨by decide, by decide, by decide⟩

lemma jsRound_natCast_mul (k : Nat) : jsRound ((k : ℚ) * 1000) = (k : Int) * 1000 := by
  unfold jsRound
  have h : ((k : ℚ) * 1000) = (((k * 1000 : Int) : Int) : ℚ) := by push_cast; ring
  have hhalf : ⌊(1 / 2 : ℚ)⌋ = 0 := by norm_num
  rw [h, Int.floor_int_add, hhalf, add_zero]

/-- C7: with `respectRetryAfter` enabled, when a retryable response carries a
numeric `Retry-After` header of `k` seconds, the delay recorded before the
next attempt equals `max(retryAfterMs, backoffMs)` — `retryAfterMs` being the
parsed header value — and is at least `k × 1000` milliseconds. -/
theorem fetchLoop_retry_after_lower_bound
    (pol : NormalizedPolicy) (operation : String) (reqInit : Nat → RequestInit)
    (fetchFn : Nat → FetchOutcome) (rand : Nat → ℚ) (now : Int)
    (remaining attempt calls : Nat) (delays : List Int) (lastError : Option JsError)
    (r : Response) (k : Nat)
    (hra : pol.respectRetryAfter = true)
    (hab : (reqInit attempt).signalAborted = false)
    (hf : fetchFn (calls + 1) = .resp r)
    (hh : r.retryAfter = .numeric (k : ℚ))
    (hok : r.ok = false)
    (hatt : (attempt : Int) < pol.maxAttempts)
    (hmeth : pol.retryableMethods.contains
      (jsToUpper ((reqInit attempt).method.getD "GET")) = true)
    (hst : pol.retryableStatusCodes.contains r.status = true) :
    ∃ d,
      fetchLoop pol operation reqInit fetchFn rand now (remaining + 1) attempt calls delays
          lastError =
        fetchLoop pol operation reqInit fetchFn rand now remaining (attempt + 1) (calls + 1)
          (delays ++ [d]) lastError ∧
      d = max ((parseRetryAfterMs now r.retryAfter).getD 0)
        (computeBackoffDelayMs attempt pol.baseDelayMs pol.maxDelayMs pol.jitterRatio
          (rand attempt)) ∧
      (k * 1000 : Int) ≤ d := by
  refine ⟨max ((parseRetryAfterMs now r.retryAfter).getD 0)
      (computeBackoffDelayMs attempt pol.baseDelayMs pol.maxDelayMs pol.jitterRatio
        (rand attempt)), ?_, rfl, ?_⟩
  · have hmm : jsToUpper ((reqInit attempt).method.getD "GET") ∈ pol.retryableMethods := by
      simpa using hmeth
    have hsm : r.status ∈ pol.retryableStatusCodes := by
      simpa using hst
    have hnle : ¬ (pol.maxAttempts ≤ (attempt : Int)) := not_le.mpr hatt
    simp only [fetchLoop]
    simp [hab, hf, hok, hra, hmm, hsm, hnle]
  · have hparse : (parseRetryAfterMs now r.retryAfter).getD 0 = (k : Int) * 1000 := by
      rw [hh]
      simp [parseRetryAfterMs, jsRound_natCast_mul]
    calc ((k : Nat) * 1000 : Int) = (k : Int) * 1000 := by ring
    _ = (parseRetryAfterMs now r.retryAfter).getD 0 := hparse.symm
    _ ≤ _ := le_max_left _ _

def c7Req : Nat → RequestInit := fun _ => {}

def c7Fetch : Nat → FetchOutcome :=
  fun _ => .resp { status := 429, retryAfter := .numeric 7 }

theorem fetchLoop_retry_after_lower_bound_witness :
    ∃ d,
      fetchLoop (normalizePolicy none) "generateImage" c7Req c7Fetch (fun _ => 0) 0 3 1 0 []
          none =
        fetchLoop (normalizePolicy none) "generateImage" c7Req c7Fetch (fun _ => 0) 0 2 2 1
          ([] ++ [d]) none ∧
      d = max ((parseRetryAfterMs 0 (RetryAfterHeader.numeric 7)).getD 0)
        (computeBackoffDelayMs 1 (normalizePolicy none).baseDelayMs
          (normalizePolicy none).maxDelayMs (normalizePolicy none).jitterRatio 0) ∧
      ((7 : Nat) * 1000 : Int) ≤ d :=
  fetchLoop_retry_after_lower_bound (normalizePolicy none) "generateImage" c7Req c7Fetch
    (fun _ => 0) 0 2 1 0 [] none { status := 429, retryAfter := .numeric 7 } 7
    rfl rfl rfl (by norm_num) (by decide) (by decide) (by decide) (by decide)

lemma retryAfter_getD_nonneg (b : Bool) (now : Int) (h : RetryAfterHeader) :
    0 ≤ (if b then parseRetryAfterMs now h else none).getD 0 := by
  cases b with
  | false => simp
  | true =>
      cases h with
      | absent => simp [parseRetryAfterMs]
      | numeric s => simp [parseRetryAfterMs]
      | httpDate t => simp [parseRetryAfterMs]
      | malformed => simp [parseRetryAfterMs]

lemma computeBackoffDelayMs_nonneg (retryIndex : Nat) (base maxD : Int) (jr rd : ℚ)
    (hb : 0 ≤ base) (hM : 0 ≤ maxD) (hj : 0 ≤ jr) (hr : 0 ≤ rd) :
    0 ≤ computeBackoffDelayMs retryIndex base maxD jr rd := by
  unfold computeBackoffDelayMs
  have hc0 : 0 ≤ min maxD (base * 2 ^ (retryIndex - 1)) :=
    le_min hM (mul_nonneg hb (pow_nonneg (by norm_num) _))
  by_cases h : min maxD (base * 2 ^ (retryIndex - 1)) = 0
  · simp [h]
  · simp only [h, if_false]
    unfold jsRound
    have hcq : (0 : ℚ) ≤ ((min maxD (base * 2 ^ (retryIndex - 1)) : Int) : ℚ) := by
      exact_mod_cast hc0
    refine Int.le_floor.mpr ?_
    have h1 : (0 : ℚ) ≤ ((min maxD (base * 2 ^ (retryIndex - 1)) : Int) : ℚ) * jr * rd :=
      mul_nonneg (mul_nonneg hcq hj) hr
    rw [Int.cast_zero]
    linarith

lemma fetchLoop_calls_le (pol : NormalizedPolicy) (operation : String)
    (reqInit : Nat → RequestInit) (fetchFn : Nat → FetchOutcome) (rand : Nat → ℚ) (now : Int) :
    ∀ (remaining attempt calls : Nat) (delays : List Int) (lastError : Option JsError),
      calls ≤ (fetchLoop pol operation reqInit fetchFn rand now remaining attempt calls delays
        lastError).calls := by
  intro remaining
  induction remaining with
  | zero => intro attempt calls delays lastError; simp [fetchLoop]
  | succ m ih =>
      intro attempt calls delays lastError
      simp only [fetchLoop]
      split
      · exact le_refl calls
      · split
        · split
          · exact Nat.le_succ calls
          · split
            · exact Nat.le_succ calls
            · exact le_trans (Nat.le_succ calls) (ih _ _ _ _)
        · split
          · exact Nat.le_succ calls
          · exact le_trans (Nat.le_succ calls) (ih _ _ _ _)

lemma fetchLoop_delays_nonneg (pol : NormalizedPolicy) (operation : String)
    (reqInit : Nat → RequestInit) (fetchFn : Nat → FetchOutcome) (rand : Nat → ℚ) (now : Int)
    (hb : 0 ≤ pol.baseDelayMs) (hM : 0 ≤ pol.maxDelayMs) (hj : 0 ≤ pol.jitterRatio)
    (hr : ∀ a, 0 ≤ rand a) :
    ∀ (remaining attempt calls : Nat) (delays : List Int) (lastError : Option JsError),
      (∀ d ∈ delays, 0 ≤ d) →
      ∀ d ∈ (fetchLoop pol operation reqInit fetchFn rand now remaining attempt calls delays
        lastError).delays, 0 ≤ d := by
  intro remaining
  induction remaining with
  | zero => intro attempt calls delays lastError hd; simpa [fetchLoop] using hd
  | succ m ih =>
      intro attempt calls delays lastError hd
      simp only [fetchLoop]
      split
      · exact hd
      · split
        · split
          · exact hd
          · split
            · exact hd
            · refine ih _ _ _ _ ?_
              intro d hdm
              rcases List.mem_append.mp hdm with hmem | hmem
              · exact hd d hmem
              · have hde := List.mem_singleton.mp hmem
                subst hde
                exact le_trans (retryAfter_getD_nonneg pol.respectRetryAfter now _)
                  (le_max_left _ _)
        · split
          · exact hd
          · refine ih _ _ _ _ ?_
            intro d hdm
            rcases List.mem_append.mp hdm with hmem | hmem
            · exact hd d hmem
            · have hde := List.mem_singleton.mp hmem
              subst hde
              exact computeBackoffDelayMs_nonneg _ _ _ _ _ hb hM hj (hr attempt)

/-- C10: normalization clamps every supplied policy — `maxAttempts` and
`timeoutMs` to at least 1, `baseDelayMs`, `maxDelayMs` and `jitterRatio` to
at least 0 — so that (absent an external abort on the first attempt, and with
the random jitter draws nonnegative as `Math.random()` guarantees)
`fetchWithPolicy` performs at least one fetch call and every recorded retry
delay is nonnegative. -/
theorem normalizePolicy_clamps_and_safe (policy : Option HttpClientPolicy) :
    1 ≤ (normalizePolicy policy).maxAttempts ∧
    1 ≤ (normalizePolicy policy).timeoutMs ∧
    0 ≤ (normalizePolicy policy).baseDelayMs ∧
    0 ≤ (normalizePolicy policy).maxDelayMs ∧
    0 ≤ (normalizePolicy policy).jitterRatio ∧
    (∀ (options : FetchWithPolicyOptions) (rand : Nat → ℚ) (now : Int),
      options.policy = policy →
      (options.createRequestInit 1).signalAborted = false →
      (∀ a, 0 ≤ rand a) →
      1 ≤ (fetchWithPolicy options rand now).calls ∧
      ∀ d ∈ (fetchWithPolicy options rand now).delays, 0 ≤ d) := by
  refine ⟨le_max_left 1 _, le_max_left 1 _, le_max_left 0 _, le_max_left 0 _,
    le_max_left 0 _, ?_⟩
  intro options rand now _ hab hr
  constructor
  · obtain ⟨m, hm⟩ := normalizePolicy_maxAttempts_toNat_succ options.policy
    show 1 ≤ (fetchLoop (normalizePolicy options.policy) options.operation
      options.createRequestInit options.fetchFn rand now
      (normalizePolicy options.policy).maxAttempts.toNat 1 0 [] none).calls
    rw [hm]
    simp only [fetchLoop, hab]
    cases hfo : options.fetchFn (0 + 1) with
    | resp r =>
        simp only [Bool.false_eq_true, if_false, hfo]
        split
        · simp
        · split
          · simp
          · exact le_trans (by omega)
              (fetchLoop_calls_le (normalizePolicy options.policy) options.operation
                options.createRequestInit options.fetchFn rand now m 2 1 _ none)
    | thrown e =>
        simp only [Bool.false_eq_true, if_false, hfo]
        split
        · simp
        · exact le_trans (by omega)
            (fetchLoop_calls_le (normalizePolicy options.policy) options.operation
              options.createRequestInit options.fetchFn rand now m 2 1 _ _)
  · show ∀ d ∈ (fetchLoop (normalizePolicy options.policy) options.operation
      options.createRequestInit options.fetchFn rand now
      (normalizePolicy options.policy).maxAttempts.toNat 1 0 [] none).delays, 0 ≤ d
    exact fetchLoop_delays_nonneg (normalizePolicy options.policy) options.operation
      options.createRequestInit options.fetchFn rand now (le_max_left 0 _) (le_max_left 0 _)
      (le_max_left 0 _) hr _ _ _ _ _ (by simp)

def c10Policy : HttpClientPolicy :=
  { maxAttempts := some (-5), timeoutMs := some 0, baseDelayMs := some (-100),
    maxDelayMs := some (-1), jitterRatio := some (-1) }

def c10Options : FetchWithPolicyOptions :=
  { url := "https://api.example.com", operation := "chatWithAI",
    fetchFn := fun _ => .resp { status := 503 },
    policy := some c10Policy,
    createRequestInit := fun _ => {} }

theorem normalizePolicy_clamps_and_safe_witness :
    (1 ≤ (normalizePolicy (some c10Policy)).maxAttempts ∧
      1 ≤ (normalizePolicy (some c10Policy)).timeoutMs ∧
      0 ≤ (normalizePolicy (some c10Policy)).baseDelayMs ∧
      0 ≤ (normalizePolicy (some c10Policy)).maxDelayMs ∧
      0 ≤ (normalizePolicy (some c10Policy)).jitterRatio) ∧
    1 ≤ (fetchWithPolicy c10Options (fun _ => 0) 0).calls ∧
    ∀ d ∈ (fetchWithPolicy c10Options (fun _ => 0) 0).delays, 0 ≤ d :=
  ⟨⟨(normalizePolicy_clamps_and_safe (some c10Policy)).1,
    (normalizePolicy_clamps_and_safe (some c10Policy)).2.1,
    (normalizePolicy_clamps_and_safe (some c10Policy)).2.2.1,
    (normalizePolicy_clamps_and_safe (some c10Policy)).2.2.2.1,
    (normalizePolicy_clamps_and_safe (some c10Policy)).2.2.2.2.1⟩,
    (normalizePolicy_clamps_and_safe (some c10Policy)).2.2.2.2.2 c10Options (fun _ => 0) 0
      rfl rfl (fun _ => le_refl 0)⟩

/-!
Part 2: the adapter routing engine of `adapter-platform.ts`
(`createAdapterPlatform`).  Adapter handler functions are modelled by their
presence (`typeof adapter[method] === "function"` only ever checks presence);
invoking a handler is modelled by the `AdapterInvocation` record carrying the
adapter id and the request context built by `createAdapterContext`, since the
handler body itself is an external collaborator.  `crypto.randomUUID()` for
`traceId` is passed in explicitly; the nondeterministic envelope fields of
`createCompletionBase` (`id`, `createdAt`, `durationMs`) are omitted from the
model for the same reason.
-/

/-- The `AICapability` enum (numeric values pinned by the package tests:
Chat = 0 .. Model = 6). -/
inductive AICapability where
  | Chat
  | Text
  | Speech
  | Image
  | Video
  | Balance
  | Model
deriving DecidableEq, Repr

/-- Numeric enum value, as interpolated into error message strings by
TypeScript template literals. -/
def AICapability.enumValue : AICapability → Nat
  | .Chat => 0
  | .Text => 1
  | .Speech => 2
  | .Image => 3
  | .Video => 4
  | .Balance => 5
  | .Model => 6

/-- String rendering of a capability inside a template literal (a numeric
TS enum member renders as its number). -/
def capabilityLabel (c : AICapability) : String := toString c.enumValue

/-- The `AdapterOperationMethod` union type from the source. -/
inductive AdapterOperationMethod where
  | chatWithAI
  | synthesizeSpeech
  | transcribeSpeech
  | generateImage
  | produceVideo
  | generateModel
  | checkBalance
deriving DecidableEq, Repr

/-- Method name string, as interpolated into error messages. -/
def methodLabel : AdapterOperationMethod → String
  | .chatWithAI => "chatWithAI"
  | .synthesizeSpeech => "synthesizeSpeech"
  | .transcribeSpeech => "transcribeSpeech"
  | .generateImage => "generateImage"
  | .produceVideo => "produceVideo"
  | .generateModel => "generateModel"
  | .checkBalance => "checkBalance"

/-- An `AICapabilityAdapter`: its id, declared capabilities, optional
`canHandle` veto, and the presence of each optional handler method (the
routing engine only ever checks `typeof adapter[method] === "function"`). -/
structure AICapabilityAdapter where
  id : String
  capabilities : List AICapability
  hasCanHandle : Bool := false
  canHandleFn : List AICapability → Bool := fun _ => true
  chatWithAI : Bool := false
  synthesizeSpeech : Bool := false
  transcribeSpeech : Bool := false
  generateImage : Bool := false
  produceVideo : Bool := false
  generateModel : Bool := false
  checkBalance : Bool := false

/-- `typeof adapter[method] === "function"`. -/
def hasMethod (adapter : AICapabilityAdapter) : AdapterOperationMethod → Bool
  | .chatWithAI => adapter.chatWithAI
  | .synthesizeSpeech => adapter.synthesizeSpeech
  | .transcribeSpeech => adapter.transcribeSpeech
  | .generateImage => adapter.generateImage
  | .produceVideo => adapter.produceVideo
  | .generateModel => adapter.generateModel
  | .checkBalance => adapter.checkBalance

/-- `AdapterPlatformProps`: the adapter registry, the API key table
(a JS object, i.e. a finite string map, modelled as an association list
with unique keys) and the optional per-capability default adapter ids. -/
structure AdapterPlatformProps where
  adapters : List AICapabilityAdapter
  apiKeys : List (String × String) := []
  defaultAdapterByCapability : AICapability → Option String := fun _ => none

/-- The `adapterById` map built during construction.  Construction throws on
duplicate or blank ids, so on every registry that survives construction the
map lookup coincides with first-match search over the registration list. -/
def adapterById (adapters : List AICapabilityAdapter) (adapterId : String) :
    Option AICapabilityAdapter :=
  adapters.find? (fun a => a.id == adapterId)

/-- The id-validation loop at the top of `createAdapterPlatform`: every id
must be non-blank and ids must be pairwise distinct, otherwise construction
throws. -/
def validAdapterIds (adapters : List AICapabilityAdapter) : Bool :=
  adapters.all (fun a => (jsTrim a.id).length > 0) &&
    (adapters.map (fun a => a.id)).Nodup

/-- `resolveApiKey` from `createAdapterPlatform`: look up the provider id in
the key table, trim it, and treat blank-after-trimming (or absent) values as
missing. -/
def resolveApiKey (apiKeys : List (String × String)) (providerId : String) : Option String :=
  match apiKeys.lookup providerId with
  | none => none
  | some value =>
      let trimmed := jsTrim value
      if trimmed.length > 0 then some trimmed else none

/-- `AdapterRequestContext` from the source. -/
structure AdapterRequestContext where
  userId : String
  providerId : String
  apiKey : String
  traceId : String
deriving DecidableEq, Repr

/-- `createAdapterContext` from the source (`traceId` is the
`crypto.randomUUID()` draw, passed in explicitly). -/
def createAdapterContext (requestorId : String) (adapter : AICapabilityAdapter)
    (apiKey : String) (traceId : String) : AdapterRequestContext :=
  { userId := requestorId, providerId := adapter.id, apiKey := apiKey, traceId := traceId }

/-- `requiresOperationalMethod` from the source: whether the adapter exposes
the operationally relevant handler for a capability (for Speech either
synthesis or transcription suffices; Text needs nothing). -/
def requiresOperationalMethod (capability : AICapability)
    (adapter : AICapabilityAdapter) : Bool :=
  match capability with
  | .Chat => adapter.chatWithAI
  | .Text => true
  | .Speech => adapter.synthesizeSpeech || adapter.transcribeSpeech
  | .Image => adapter.generateImage
  | .Video => adapter.produceVideo
  | .Balance => adapter.checkBalance
  | .Model => adapter.generateModel

/-- A successful resolution: the chosen adapter plus its resolved API key. -/
structure ResolvedAdapter where
  adapter : AICapabilityAdapter
  apiKey : String

/-- `resolveAdapter` from `createAdapterPlatform`.  `Except.error` is the
thrown error of the `required` path; `Except.ok none` is the quiet
`undefined` of the optional path.  A configured default id (when truthy,
i.e. non-empty) is binding: the fallback registration-order scan only runs
when no default is configured. -/
def resolveAdapter (props : AdapterPlatformProps) (capability : AICapability)
    (method : AdapterOperationMethod) (required : Bool) :
    Except String (Option ResolvedAdapter) :=
  let fail : String → Except String (Option ResolvedAdapter) :=
    fun message => if required then .error message else .ok none
  let configuredId := (props.defaultAdapterByCapability capability).getD ""
  if configuredId ≠ "" then
    match adapterById props.adapters configuredId with
    | none =>
        fail ("Configured adapter \"" ++ configuredId ++ "\" for capability \"" ++
          capabilityLabel capability ++ "\" was not found.")
    | some configured =>
        if !(configured.capabilities.contains capability) then
          fail ("Configured adapter \"" ++ configuredId ++ "\" does not declare capability \"" ++
            capabilityLabel capability ++ "\".")
        else if !(hasMethod configured method) then
          fail ("Configured adapter \"" ++ configuredId ++ "\" does not implement \"" ++
            methodLabel method ++ "\" for capability \"" ++ capabilityLabel capability ++ "\".")
        else
          match resolveApiKey props.apiKeys configured.id with
          | none => fail ("Missing API key for configured adapter \"" ++ configured.id ++ "\".")
          | some apiKey => .ok (some { adapter := configured, apiKey := apiKey })
  else
    match props.adapters.find? (fun candidate =>
        candidate.capabilities.contains capability && hasMethod candidate method) with
    | none =>
        fail ("No adapter found for capability \"" ++ capabilityLabel capability ++
          "\" implementing \"" ++ methodLabel method ++ "\".")
    | some fallb =>
        match resolveApiKey props.apiKeys fallb.id with
        | none => fail ("Missing API key for adapter \"" ++ fallb.id ++ "\".")
        | some apiKey => .ok (some { adapter := fallb, apiKey := apiKey })

/-- The adapter that the platform-level `canHandle` inspects for one
capability: the configured default id when truthy, else the first registered
adapter declaring the capability. -/
def canHandleAdapterFor (props : AdapterPlatformProps) (capability : AICapability) :
    Option AICapabilityAdapter :=
  let configuredId := (props.defaultAdapterByCapability capability).getD ""
  if configuredId ≠ "" then adapterById props.adapters configuredId
  else props.adapters.find? (fun candidate => candidate.capabilities.contains capability)

/-- The body of `canHandle`'s per-capability loop iteration: adapter
existence, capability declaration, API key presence, operational-handler
presence, and the adapter's own optional veto, in the source's order. -/
def capabilityCheck (props : AdapterPlatformProps) (capability : AICapability) : Bool :=
  match canHandleAdapterFor props capability with
  | none => false
  | some adapter =>
      adapter.capabilities.contains capability &&
      (resolveApiKey props.apiKeys adapter.id).isSome &&
      requiresOperationalMethod capability adapter &&
      (if adapter.hasCanHandle then adapter.canHandleFn [capability] else true)

/-- The platform-level `canHandle` from `createAdapterPlatform` (the
requestor id argument is unused by the source, so it is omitted): the loop
returns false at the first requested capability failing any check, true when
every capability passes. -/
def canHandle (props : AdapterPlatformProps) (capabilities : List AICapability) : Bool :=
  capabilities.all (capabilityCheck props)

/-- One dispatched handler call: which adapter was invoked and the request
context it received. -/
structure AdapterInvocation where
  adapterId : String
  context : AdapterRequestContext
deriving DecidableEq, Repr

/-- `generateImage` from `createAdapterPlatform`: required resolution for the
Image capability and `generateImage` handler, then invocation of the
resolved adapter's handler with a fresh context. -/
def generateImage (props : AdapterPlatformProps) (requestorId traceId : String) :
    Except String AdapterInvocation :=
  match resolveAdapter props .Image .generateImage true with
  | .error message => .error message
  | .ok none => .error "unreachable: required resolution returned no adapter"
  | .ok (some resolved) =>
      .ok { adapterId := resolved.adapter.id,
            context := createAdapterContext requestorId resolved.adapter resolved.apiKey
              traceId }

/-- The envelope fields of `createCompletionBase` that are deterministic
(`id`, `createdAt` and `durationMs` are ambient-environment draws and are
not modelled). -/
structure CompletionBase where
  partitionKey : String
  type : String
  model : String
deriving DecidableEq, Repr

/-- `createCompletionBase` from the source, restricted to its deterministic
fields. -/
def createCompletionBase (type model requestor : String) : CompletionBase :=
  { partitionKey := requestor, type := type, model := model }

/-- The balance completion constructed by `checkBalance`'s zero-balance
path. -/
structure BalanceCompletionModel where
  base : CompletionBase
  balance : Int
deriving DecidableEq, Repr

/-- What `checkBalance` does: either it builds the zero-balance completion
itself, or it delegates to the resolved adapter's `checkBalance` handler. -/
inductive CheckBalanceOutcome where
  | completion (c : BalanceCompletionModel)
  | delegated (inv : AdapterInvocation)
deriving DecidableEq, Repr

/-- `checkBalance` from `createAdapterPlatform`: optional resolution for the
Balance capability; when nothing resolves (or the resolved adapter lacks the
handler) a zero-balance completion is returned instead of an error. -/
def checkBalance (props : AdapterPlatformProps) (requestorId traceId : String) :
    Except String CheckBalanceOutcome :=
  match resolveAdapter props .Balance .checkBalance false with
  | .error message => .error message
  | .ok none =>
      .ok (.completion ⟨createCompletionBase "balanceCompletion" "" requestorId, 0⟩)
  | .ok (some resolved) =>
      if resolved.adapter.checkBalance then
        .ok (.delegated ⟨resolved.adapter.id,
          createAdapterContext requestorId resolved.adapter resolved.apiKey traceId⟩)
      else
        .ok (.completion ⟨createCompletionBase "balanceCompletion" "" requestorId, 0⟩)

/-- C4: balance checking degrades gracefully.  Whenever the optional Balance
resolution produces no adapter, `checkBalance` does not throw and returns the
zero-balance completion; and whenever no registered adapter declares the
Balance capability at all — in particular for a registry with zero
balance-capable adapters — the optional resolution does produce no adapter. -/
theorem checkBalance_zero_graceful :
    (∀ (props : AdapterPlatformProps) (requestorId traceId : String),
      resolveAdapter props .Balance .checkBalance false = .ok none →
      checkBalance props requestorId traceId =
        .ok (.completion ⟨createCompletionBase "balanceCompletion" "" requestorId, 0⟩)) ∧
    (∀ props : AdapterPlatformProps,
      (∀ a ∈ props.adapters, a.capabilities.contains AICapability.Balance = false) →
      resolveAdapter props .Balance .checkBalance false = .ok none) := by
  constructor
  · intro props requestorId traceId h
    simp [checkBalance, h]
  · intro props hnone
    simp only [resolveAdapter]
    by_cases hc : ((props.defaultAdapterByCapability .Balance).getD "") ≠ ""
    · rw [if_pos hc]
      cases hfind : adapterById props.adapters
          ((props.defaultAdapterByCapability .Balance).getD "") with
      | none => simp
      | some a =>
          have hmem : a ∈ props.adapters := List.mem_of_find?_eq_some hfind
          have hcapm : AICapability.Balance ∉ a.capabilities := by
            simpa using hnone a hmem
          simp [hcapm]
    · rw [if_neg hc]
      have hfind : props.adapters.find? (fun candidate =>
          candidate.capabilities.contains AICapability.Balance &&
          hasMethod candidate .checkBalance) = none := by
        rw [List.find?_eq_none]
        intro a hmem
        have hcapm : AICapability.Balance ∉ a.capabilities := by
          simpa using hnone a hmem
        simp [hcapm]
      rw [hfind]
      rfl

def c4Adapter : AICapabilityAdapter :=
  { id := "chat-provider", capabilities := [.Chat], chatWithAI := true }

def c4Props : AdapterPlatformProps :=
  { adapters := [c4Adapter], apiKeys := [("chat-provider", "chat-key")] }

theorem checkBalance_zero_graceful_witness :
    checkBalance c4Props "user-1" "trace-1" =
      .ok (.completion ⟨createCompletionBase "balanceCompletion" "" "user-1", 0⟩) :=
  checkBalance_zero_graceful.1 c4Props "user-1" "trace-1" rfl

/-- C9: for every registry consisting of a single adapter that declares the
Image capability and implements `generateImage`, with an empty API key table
(and no configured Image default), `generateImage` throws an error whose
message starts with "Missing API key". -/
theorem generateImage_missing_key
    (props : AdapterPlatformProps) (a : AICapabilityAdapter) (requestorId traceId : String)
    (hadapters : props.adapters = [a])
    (hcap : a.capabilities.contains AICapability.Image = true)
    (hmeth : a.generateImage = true)
    (hkeys : props.apiKeys = [])
    (hdef : props.defaultAdapterByCapability .Image = none) :
    ∃ rest, generateImage props requestorId traceId = .error ("Missing API key" ++ rest) := by
  refine ⟨" for adapter \"" ++ (a.id ++ "\"."), ?_⟩
  unfold generateImage
  simp only [resolveAdapter, hdef, Option.getD_none]
  rw [if_neg (by simp)]
  have hcapm : AICapability.Image ∈ a.capabilities := by
    simpa using hcap
  have hfind : List.find? (fun candidate =>
      candidate.capabilities.contains AICapability.Image &&
      hasMethod candidate AdapterOperationMethod.generateImage) [a] = some a := by
    simp [List.find?_cons, hcapm, hasMethod, hmeth]
  rw [hadapters, hfind, hkeys]
  have hmsg : "Missing API key for adapter \"" ++ a.id ++ "\"." =
      "Missing API key" ++ (" for adapter \"" ++ (a.id ++ "\".")) := by
    rw [show ("Missing API key for adapter \"" : String) =
      "Missing API key" ++ " for adapter \"" from rfl]
    rw [String.append_assoc, String.append_assoc]
  simp [resolveApiKey, hmsg]

def c9Adapter : AICapabilityAdapter :=
  { id := "img-a", capabilities := [.Image], generateImage := true }

def c9Props : AdapterPlatformProps := { adapters := [c9Adapter] }

theorem generateImage_missing_key_witness :
    ∃ rest, generateImage c9Props "user-1" "trace-1" = .error ("Missing API key" ++ rest) :=
  generateImage_missing_key c9Props c9Adapter "user-1" "trace-1" rfl rfl rfl rfl rfl

/-- C2: a configured Image default is binding.  Whenever the default adapter
id for Image names `bId`, `generateImage` resolves to that adapter — for any
registry contents and registration order — provided it is registered,
declares Image, implements the handler and has a key; and when the
configured default is missing, does not declare the capability, lacks the
handler, or lacks an API key, the required resolution throws instead of
falling back to any other adapter. -/
theorem generateImage_default_binding
    (props : AdapterPlatformProps) (bId requestorId traceId : String)
    (hconf : props.defaultAdapterByCapability .Image = some bId)
    (hne : bId ≠ "") :
    (∀ b, adapterById props.adapters bId = some b →
      b.capabilities.contains AICapability.Image = true →
      b.generateImage = true →
      ∀ k, resolveApiKey props.apiKeys bId = some k →
      generateImage props requestorId traceId =
        .ok ⟨bId, ⟨requestorId, bId, k, traceId⟩⟩) ∧
    (adapterById props.adapters bId = none →
      ∃ msg, generateImage props requestorId traceId = .error msg) ∧
    (∀ b, adapterById props.adapters bId = some b →
      b.capabilities.contains AICapability.Image = false →
      ∃ msg, generateImage props requestorId traceId = .error msg) ∧
    (∀ b, adapterById props.adapters bId = some b →
      b.capabilities.contains AICapability.Image = true →
      b.generateImage = false →
      ∃ msg, generateImage props requestorId traceId = .error msg) ∧
    (∀ b, adapterById props.adapters bId = some b →
      b.capabilities.contains AICapability.Image = true →
      b.generateImage = true →
      resolveApiKey props.apiKeys bId = none →
      ∃ msg, generateImage props requestorId traceId = .error msg) := by
  refine ⟨?_, ?_, ?_, ?_, ?_⟩
  · intro b hb hcap hmeth k hk
    have hbid : b.id = bId := by
      have := List.find?_some hb
      simpa using this
    have hcapm : AICapability.Image ∈ b.capabilities := by
      simpa using hcap
    unfold generateImage
    simp only [resolveAdapter, hconf, Option.getD_some]
    rw [if_pos hne, hb]
    simp [hcapm, hasMethod, hmeth, hbid, hk, createAdapterContext]
  · intro hb
    unfold generateImage
    simp only [resolveAdapter, hconf, Option.getD_some]
    rw [if_pos hne, hb]
    exact ⟨_, rfl⟩
  · intro b hb hcap
    have hcapm : AICapability.Image ∉ b.capabilities := by
      simpa using hcap
    unfold generateImage
    simp only [resolveAdapter, hconf, Option.getD_some]
    rw [if_pos hne, hb]
    simp [hcapm]
    try exact ⟨_, rfl⟩
  · intro b hb hcap hmeth
    have hcapm : AICapability.Image ∈ b.capabilities := by
      simpa using hcap
    unfold generateImage
    simp only [resolveAdapter, hconf, Option.getD_some]
    rw [if_pos hne, hb]
    simp [hcapm, hasMethod, hmeth]
    try exact ⟨_, rfl⟩
  · intro b hb hcap hmeth hk
    have hbid : b.id = bId := by
      have := List.find?_some hb
      simpa using this
    have hcapm : AICapability.Image ∈ b.capabilities := by
      simpa using hcap
    unfold generateImage
    simp only [resolveAdapter, hconf, Option.getD_some]
    rw [if_pos hne, hb]
    simp [hcapm, hasMethod, hmeth, hbid, hk]
    try exact ⟨_, rfl⟩

def c2AdapterA : AICapabilityAdapter :=
  { id := "img-a", capabilities := [.Image], generateImage := true }

def c2AdapterB : AICapabilityAdapter :=
  { id := "img-b", capabilities := [.Image], generateImage := true }

def c2Props : AdapterPlatformProps :=
  { adapters := [c2AdapterA, c2AdapterB],
    apiKeys := [("img-a", "key-a"), ("img-b", "key-b")],
    defaultAdapterByCapability := fun c =>
      if c = AICapability.Image then some "img-b" else none }

theorem generateImage_default_binding_witness :
    generateImage c2Props "user-1" "trace-1" =
      .ok ⟨"img-b", ⟨"user-1", "img-b", "key-b", "trace-1"⟩⟩ :=
  (generateImage_default_binding c2Props "img-b" "user-1" "trace-1" rfl
      (by decide)).1 c2AdapterB rfl rfl rfl "key-b" rfl

/-- The per-capability acceptance condition checked by `canHandle`, as a
proposition: a resolvable adapter exists, declares the capability, has a
present API key, exposes the operationally relevant handler, and (when it
defines its own veto) accepts. -/
def CapabilityAccepted (props : AdapterPlatformProps) (capability : AICapability) : Prop :=
  ∃ adapter, canHandleAdapterFor props capability = some adapter ∧
    adapter.capabilities.contains capability = true ∧
    (resolveApiKey props.apiKeys adapter.id).isSome = true ∧
    requiresOperationalMethod capability adapter = true ∧
    (adapter.hasCanHandle = true → adapter.canHandleFn [capability] = true)

lemma capabilityCheck_iff (props : AdapterPlatformProps) (capability : AICapability) :
    capabilityCheck props capability = true ↔ CapabilityAccepted props capability := by
  unfold capabilityCheck CapabilityAccepted
  cases hA : canHandleAdapterFor props capability with
  | none => simp
  | some adapter =>
      simp only [Bool.and_eq_true]
      constructor
      · rintro ⟨⟨⟨h1, h2⟩, h3⟩, h4⟩
        refine ⟨adapter, rfl, h1, h2, h3, ?_⟩
        intro hch
        simpa [hch] using h4
      · rintro ⟨a2, ha2, h1, h2, h3, h4⟩
        injection ha2 with heq
        subst heq
        refine ⟨⟨⟨h1, h2⟩, h3⟩, ?_⟩
        by_cases hch : adapter.hasCanHandle = true
        · simp [hch, h4 hch]
        · simp [hch]

def c3Adapter : AICapabilityAdapter :=
  { id := "img-a", capabilities := [.Image], generateImage := true }

def c3PropsNoKey : AdapterPlatformProps := { adapters := [c3Adapter] }

def c3PropsWithKey : AdapterPlatformProps :=
  { adapters := [c3Adapter], apiKeys := [("img-a", "img-key")] }

/-- C3: the platform-level `canHandle` accepts a capability list exactly when
every requested capability passes the per-capability checks (resolvable
adapter, declared capability, present API key, operationally relevant
handler — for Speech either direction — and the adapter's own optional
veto), returning false as soon as one capability fails; in particular it
answers false when a capability's sole adapter has no API key entry and true
once the key is supplied. -/
theorem canHandle_spec :
    (∀ (props : AdapterPlatformProps) (capabilities : List AICapability),
      canHandle props capabilities = true ↔
      ∀ c ∈ capabilities, CapabilityAccepted props c) ∧
    canHandle c3PropsNoKey [AICapability.Image] = false ∧
    canHandle c3PropsWithKey [AICapability.Image] = true := by
  refine ⟨?_, by decide, by decide⟩
  intro props capabilities
  unfold canHandle
  rw [List.all_eq_true]
  constructor
  · intro h c hc
    exact (capabilityCheck_iff props c).mp (h c hc)
  · intro h c hc
    exact (capabilityCheck_iff props c).mpr (h c hc)

lemma string_length_pos_iff (s : String) : s.length > 0 ↔ s ≠ "" := by
  constructor
  · intro h he
    subst he
    simp at h
  · intro h
    cases hs : s.data with
    | nil =>
        exfalso
        apply h
        cases s
        simp_all
    | cons c cs =>
        have hlen : s.length = s.data.length := rfl
        rw [hlen, hs]
        simp

lemma resolveApiKey_some_iff (apiKeys : List (String × String)) (providerId k : String) :
    resolveApiKey apiKeys providerId = some k ↔
    ∃ v, apiKeys.lookup providerId = some v ∧ jsTrim v = k ∧ k ≠ "" := by
  unfold resolveApiKey
  cases hl : apiKeys.lookup providerId with
  | none => simp
  | some v =>
      show (if (jsTrim v).length > 0 then some (jsTrim v) else none) = some k ↔ _
      by_cases ht : (jsTrim v).length > 0
      · rw [if_pos ht]
        constructor
        · intro h
          injection h with h
          refine ⟨v, rfl, h, ?_⟩
          rw [← h]
          exact (string_length_pos_iff _).mp ht
        · rintro ⟨v2, hv2, htr, hk⟩
          injection hv2 with hv2
          subst hv2
          rw [htr]
      · rw [if_neg ht]
        constructor
        · intro h
          cases h
        · rintro ⟨v2, hv2, htr, hk⟩
          injection hv2 with hv2
          subst hv2
          refine absurd ((string_length_pos_iff _).mpr ?_) ht
          rw [htr]
          exact hk

lemma resolveApiKey_none_iff (apiKeys : List (String × String)) (providerId : String) :
    resolveApiKey apiKeys providerId = none ↔
    (apiKeys.lookup providerId = none ∨
      ∃ v, apiKeys.lookup providerId = some v ∧ jsTrim v = "") := by
  unfold resolveApiKey
  cases hl : apiKeys.lookup providerId with
  | none => simp
  | some v =>
      show (if (jsTrim v).length > 0 then some (jsTrim v) else none) = none ↔ _
      by_cases ht : (jsTrim v).length > 0
      · rw [if_pos ht]
        simp only [reduceCtorEq, false_iff]
        rintro (hnone | ⟨v2, hv2, htr⟩)
        · exact hnone
        · injection hv2 with hv2
          subst hv2
          exact absurd htr ((string_length_pos_iff _).mp ht)
      · rw [if_neg ht]
        have htr : jsTrim v = "" := by
          by_contra hne
          exact ht ((string_length_pos_iff _).mpr hne)
        simp [htr]

/-- C8: API key injection.  Every successful resolution carries exactly the
key that `resolveApiKey` produces for the resolved adapter's id; the context
handed to a dispatched handler therefore carries the registered key string
with surrounding whitespace trimmed (and its provider id); and a key that is
absent from the table, or blank after trimming, is treated as missing. -/
theorem apiKey_injection_trimmed :
    (∀ (props : AdapterPlatformProps) (capability : AICapability)
        (method : AdapterOperationMethod) (required : Bool) (r : ResolvedAdapter),
      resolveAdapter props capability method required = .ok (some r) →
      resolveApiKey props.apiKeys r.adapter.id = some r.apiKey) ∧
    (∀ (props : AdapterPlatformProps) (requestorId traceId : String)
        (inv : AdapterInvocation),
      generateImage props requestorId traceId = .ok inv →
      inv.context.providerId = inv.adapterId ∧
      ∃ raw, props.apiKeys.lookup inv.adapterId = some raw ∧
        inv.context.apiKey = jsTrim raw ∧ jsTrim raw ≠ "") ∧
    (∀ (apiKeys : List (String × String)) (providerId : String),
      resolveApiKey apiKeys providerId = none ↔
      (apiKeys.lookup providerId = none ∨
        ∃ v, apiKeys.lookup providerId = some v ∧ jsTrim v = "")) := by
  have part1 : ∀ (props : AdapterPlatformProps) (capability : AICapability)
      (method : AdapterOperationMethod) (required : Bool) (r : ResolvedAdapter),
      resolveAdapter props capability method required = .ok (some r) →
      resolveApiKey props.apiKeys r.adapter.id = some r.apiKey := by
    intro props capability method required r h
    simp only [resolveAdapter] at h
    split at h
    · split at h
      · split at h <;> simp_all
      · split at h
        · split at h <;> simp_all
        · split at h
          · split at h <;> simp_all
          · split at h
            · split at h <;> simp_all
            · rename_i hkey
              injection h with h1
              injection h1 with h2
              subst h2
              exact hkey
    · split at h
      · split at h <;> simp_all
      · split at h
        · split at h <;> simp_all
        · rename_i hkey
          injection h with h1
          injection h1 with h2
          subst h2
          exact hkey
  refine ⟨part1, ?_, resolveApiKey_none_iff⟩
  intro props requestorId traceId inv h
  unfold generateImage at h
  cases hres : resolveAdapter props .Image .generateImage true with
  | error message => rw [hres] at h; cases h
  | ok resolvedOpt =>
      cases resolvedOpt with
      | none => rw [hres] at h; cases h
      | some resolved =>
          rw [hres] at h
          injection h with h1
          subst h1
          have hkey := part1 props .Image .generateImage true resolved hres
          have hsome := (resolveApiKey_some_iff props.apiKeys resolved.adapter.id
            resolved.apiKey).mp hkey
          obtain ⟨raw, hraw, htrim, hne⟩ := hsome
          refine ⟨rfl, raw, hraw, ?_, ?_⟩
          · simpa [createAdapterContext] using htrim.symm
          · rw [htrim]
            exact hne

def c8Adapter : AICapabilityAdapter :=
  { id := "chat-provider", capabilities := [.Chat], chatWithAI := true }

def c8Props : AdapterPlatformProps :=
  { adapters := [c8Adapter],
    apiKeys := [("chat-provider", "  chat-key-123  ")] }

def c8Resolved : ResolvedAdapter := { adapter := c8Adapter, apiKey := "chat-key-123" }

theorem apiKey_injection_trimmed_witness :
    resolveApiKey c8Props.apiKeys c8Resolved.adapter.id = some "chat-key-123" :=
  apiKey_injection_trimmed.1 c8Props .Chat .chatWithAI true c8Resolved (by rfl)
